import Mathlib

/-!
Verification of `server/adkrest/controllers/handlers.go` (package `controllers`).

The file is modelled as a shallow embedding: the underlying `http.ResponseWriter`
is a state recording the header map, the sequence of status codes it has received
through `WriteHeader`, and the accumulated body bytes.  The behaviour of the
underlying writer's `Write` result is kept abstract as a parameter `wres`
(Go's interface allows any result).  `trackingResponseWriter`, `EncodeJSONResponse`,
`NewErrorHandler` and `Unimplemented` are translated operation by operation.
-/

/-- Result behaviour of the underlying writer's `Write` method: for a given byte
sequence it returns `(bytesWritten, error)`; the error is `none` for a nil Go error. -/
abbrev Wres := String → Nat × Option String

/-- Set a key in an association-list header map, replacing an existing entry
(models `http.Header.Set`). -/
def headerSet : List (String × String) → String → String → List (String × String)
  | [], k, v => [(k, v)]
  | (k', v') :: rest, k, v =>
      if k' = k then (k, v) :: rest else (k', v') :: headerSet rest k v

/-- Delete a key from a header map (models `http.Header.Del`). -/
def headerDel : List (String × String) → String → List (String × String)
  | [], _ => []
  | (k', v') :: rest, k =>
      if k' = k then rest else (k', v') :: headerDel rest k

/-- Look a key up in a header map (models `http.Header.Get`). -/
def headerGet : List (String × String) → String → Option String
  | [], _ => none
  | (k', v') :: rest, k => if k' = k then some v' else headerGet rest k

/-- State of the underlying `http.ResponseWriter` supplied by the hosting HTTP
server: the header map, the list of status codes that have reached it through
`WriteHeader` (in order), and the concatenation of all body bytes written. -/
structure Underlying where
  headers : List (String × String)
  statusEvents : List Nat
  body : String
deriving DecidableEq

/-- `Header().Set` on the underlying writer. -/
def Underlying.setHeader (u : Underlying) (k v : String) : Underlying :=
  { u with headers := headerSet u.headers k v }

/-- `Header().Del` on the underlying writer. -/
def Underlying.delHeader (u : Underlying) (k : String) : Underlying :=
  { u with headers := headerDel u.headers k }

/-- `WriteHeader` on the underlying writer: the status code reaches the sink. -/
def Underlying.writeHeader (u : Underlying) (code : Nat) : Underlying :=
  { u with statusEvents := u.statusEvents ++ [code] }

/-- `Write` on the underlying writer: the bytes reach the sink and the writer
returns the `(bytesWritten, error)` result given by the abstract behaviour `wres`. -/
def Underlying.write (wres : Wres) (u : Underlying) (data : String) :
    Underlying × (Nat × Option String) :=
  ({ u with body := u.body ++ data }, wres data)

/-- `trackingResponseWriter` wraps `http.ResponseWriter` to track if headers have
been written (source struct with an embedded `http.ResponseWriter` and a
`headerWritten bool`). -/
structure trackingResponseWriter where
  ResponseWriter : Underlying
  headerWritten : Bool
deriving DecidableEq

/-- `trackingResponseWriter.WriteHeader`: if headers were already written, log and
skip (state unchanged); otherwise mark `headerWritten` and delegate to the
underlying writer. -/
def trackingResponseWriter.WriteHeader (w : trackingResponseWriter) (statusCode : Nat) :
    trackingResponseWriter :=
  if w.headerWritten then
    w
  else
    { ResponseWriter := w.ResponseWriter.writeHeader statusCode, headerWritten := true }

/-- `trackingResponseWriter.Write`: unconditionally mark `headerWritten` and
delegate to the underlying writer, returning its result verbatim. -/
def trackingResponseWriter.Write (wres : Wres) (w : trackingResponseWriter) (data : String) :
    trackingResponseWriter × (Nat × Option String) :=
  let r := w.ResponseWriter.write wres data
  ({ ResponseWriter := r.1, headerWritten := true }, r.2)

/-- `trackingResponseWriter.Unwrap`: expose the underlying writer. -/
def trackingResponseWriter.Unwrap (w : trackingResponseWriter) : Underlying :=
  w.ResponseWriter

/-- `Header().Set` through the tracking writer: the embedded writer's header map
is updated; the `headerWritten` flag is untouched. -/
def trackingResponseWriter.setHeader (w : trackingResponseWriter) (k v : String) :
    trackingResponseWriter :=
  { w with ResponseWriter := w.ResponseWriter.setHeader k v }

/-- `Header().Del` through the tracking writer. -/
def trackingResponseWriter.delHeader (w : trackingResponseWriter) (k : String) :
    trackingResponseWriter :=
  { w with ResponseWriter := w.ResponseWriter.delHeader k }

/-- A value of Go interface type `http.ResponseWriter` as it appears at the uses
in this file: either the package's `*trackingResponseWriter` or some other
(untracked) writer.  The dynamic type test `w.(*trackingResponseWriter)` in
`EncodeJSONResponse` is the match on this sum. -/
inductive HttpResponseWriter where
  | tracked : trackingResponseWriter → HttpResponseWriter
  | plain : Underlying → HttpResponseWriter
deriving DecidableEq

/-- Dispatch `Header().Set` on the interface value. -/
def HttpResponseWriter.setHeader : HttpResponseWriter → String → String → HttpResponseWriter
  | .tracked tw, k, v => .tracked (tw.setHeader k v)
  | .plain u, k, v => .plain (u.setHeader k v)

/-- Dispatch `Header().Del` on the interface value. -/
def HttpResponseWriter.delHeader : HttpResponseWriter → String → HttpResponseWriter
  | .tracked tw, k => .tracked (tw.delHeader k)
  | .plain u, k => .plain (u.delHeader k)

/-- Dispatch `WriteHeader` on the interface value. -/
def HttpResponseWriter.WriteHeader : HttpResponseWriter → Nat → HttpResponseWriter
  | .tracked tw, code => .tracked (tw.WriteHeader code)
  | .plain u, code => .plain (u.writeHeader code)

/-- Dispatch `Write` on the interface value. -/
def HttpResponseWriter.Write (wres : Wres) :
    HttpResponseWriter → String → HttpResponseWriter × (Nat × Option String)
  | .tracked tw, data =>
      let r := trackingResponseWriter.Write wres tw data
      (.tracked r.1, r.2)
  | .plain u, data =>
      let r := Underlying.write wres u data
      (.plain r.1, r.2)

/-- The state of the underlying sink below an interface value. -/
def HttpResponseWriter.toUnderlying : HttpResponseWriter → Underlying
  | .tracked tw => tw.ResponseWriter
  | .plain u => u

/-- Model of Go `net/http`'s `http.Error(w, error, code)`: delete Content-Length,
set plain-text headers, write the status code through `w`, then `Fprintln` the
message (the message followed by a newline) through `w`. -/
def httpError (wres : Wres) (w : HttpResponseWriter) (msg : String) (code : Nat) :
    HttpResponseWriter :=
  let w1 := w.delHeader "Content-Length"
  let w2 := w1.setHeader "Content-Type" "text/plain; charset=utf-8"
  let w3 := w2.setHeader "X-Content-Type-Options" "nosniff"
  let w4 := HttpResponseWriter.WriteHeader w3 code
  (HttpResponseWriter.Write wres w4 (msg ++ "\n")).1

/-- The argument `i any` of `EncodeJSONResponse`, abstracted to exactly what the
code branches on: Go `nil`; a serializable value whose JSON encoder output is
the byte sequence `s`; or a value whose JSON serialization fails with error
message `errMsg` (the encoder then writes nothing). -/
inductive JsonValue where
  | null : JsonValue
  | ok (s : String) : JsonValue
  | bad (errMsg : String) : JsonValue
deriving DecidableEq

/-- The error-recovery block of `EncodeJSONResponse` run when
`json.NewEncoder(w).Encode(i)` returned a non-nil error with message `errMsg`:
if `w` is a `*trackingResponseWriter` whose headers were written, only log;
otherwise `http.Error(w, err.Error(), http.StatusInternalServerError)`. -/
def encodeJSONFail (wres : Wres) (w : HttpResponseWriter) (errMsg : String) :
    HttpResponseWriter :=
  match w with
  | .tracked tw => if tw.headerWritten then w else httpError wres w errMsg 500
  | .plain _ => httpError wres w errMsg 500

/-- `EncodeJSONResponse(i, status, w)`: set the JSON content type, write the
status code, and if `i` is non-nil encode it onto `w`; on encoder failure run
the recovery block.  `Encode` writes nothing when marshalling fails, and
propagates the underlying write error when writing fails. -/
def EncodeJSONResponse (wres : Wres) (i : JsonValue) (status : Nat)
    (w : HttpResponseWriter) : HttpResponseWriter :=
  let w1 := w.setHeader "Content-Type" "application/json; charset=UTF-8"
  let w2 := HttpResponseWriter.WriteHeader w1 status
  match i with
  | .null => w2
  | .ok s =>
      let r := HttpResponseWriter.Write wres w2 s
      match (r.2).2 with
      | none => r.1
      | some werr => encodeJSONFail wres r.1 werr
  | .bad errMsg => encodeJSONFail wres w2 errMsg

/-- Modelled from the spec: the repository's `statusError` type is not under
`src/` (only its use in `NewErrorHandler` is); per the spec it is "a polymorphic
error variant exposing an integer HTTP status code and a human-readable
message", with generic errors carrying no status.  `Error()` yields the message,
`Status()` the declared code. -/
inductive GoError where
  | generic (msg : String) : GoError
  | status (code : Nat) (msg : String) : GoError
deriving DecidableEq

/-- `Error()` on either variant returns the message. -/
def GoError.Error : GoError → String
  | .generic m => m
  | .status _ m => m

/-- `Status()` on the status-carrying variant. -/
def GoError.Status : GoError → Nat
  | .generic _ => 500
  | .status c _ => c

/-- One observable interaction a fallible handler (`errorHandler`) can perform
on the response writer it receives. -/
inductive HandlerOp where
  | setHeader (k v : String) : HandlerOp
  | writeHeader (code : Nat) : HandlerOp
  | write (data : String) : HandlerOp
deriving DecidableEq

/-- Whether an operation emits output (status or body) through the sink, as
opposed to only mutating the header map. -/
def HandlerOp.emits : HandlerOp → Bool
  | .setHeader _ _ => false
  | .writeHeader _ => true
  | .write _ => true

/-- Run a fallible handler's interaction sequence against the tracking writer
it was handed. -/
def runHandlerOps (wres : Wres) : trackingResponseWriter → List HandlerOp →
    trackingResponseWriter
  | tw, [] => tw
  | tw, HandlerOp.setHeader k v :: rest => runHandlerOps wres (tw.setHeader k v) rest
  | tw, HandlerOp.writeHeader c :: rest =>
      runHandlerOps wres (tw.WriteHeader c) rest
  | tw, HandlerOp.write d :: rest =>
      runHandlerOps wres (trackingResponseWriter.Write wres tw d).1 rest

/-- The tracking writer constructed by `NewErrorHandler` around the server's
writer `w`: `&trackingResponseWriter{ResponseWriter: w}` (flag zero-valued false). -/
def freshTracking (w : Underlying) : trackingResponseWriter :=
  { ResponseWriter := w, headerWritten := false }

/-- `NewErrorHandler(fn)` applied to a request: wrap `w` in a tracking writer,
run the fallible handler (its interactions `ops` and returned error `err`), and
on a non-nil error either only log (headers already sent) or write a plain-text
error response via `http.Error` on the tracking writer, using the status-carrying
error's message and status when the dynamic type test succeeds, else status 500.
The observable outcome is the final state of the underlying writer. -/
def NewErrorHandler (wres : Wres) (ops : List HandlerOp) (err : Option GoError)
    (w : Underlying) : Underlying :=
  let tw := freshTracking w
  let tw1 := runHandlerOps wres tw ops
  match err with
  | none => tw1.ResponseWriter
  | some e =>
      if tw1.headerWritten then
        tw1.ResponseWriter
      else
        match e with
        | GoError.status code msg =>
            (httpError wres (HttpResponseWriter.tracked tw1) msg code).toUnderlying
        | GoError.generic msg =>
            (httpError wres (HttpResponseWriter.tracked tw1) msg 500).toUnderlying

/-- `Unimplemented(rw, req)`: write status 501 and nothing else. -/
def Unimplemented (rw : HttpResponseWriter) : HttpResponseWriter :=
  HttpResponseWriter.WriteHeader rw 501

/-- One operation of the Tracked Response Sink interface as the spec lists it:
`setStatus`, `writeBody`, `unwrap`.  `unwrap` is a pure observation and leaves
the sink state unchanged. -/
inductive SinkOp where
  | setStatus (code : Nat) : SinkOp
  | writeBody (data : String) : SinkOp
  | unwrap : SinkOp
deriving DecidableEq

/-- Apply a sink operation to a tracking writer. -/
def applySinkOp (wres : Wres) (tw : trackingResponseWriter) : SinkOp →
    trackingResponseWriter
  | .setStatus c => tw.WriteHeader c
  | .writeBody d => (trackingResponseWriter.Write wres tw d).1
  | .unwrap => tw

/-- Sample write behaviour for witnesses: every underlying write succeeds in full. -/
def wresOk : Wres := fun d => (d.length, none)

/-- Sample write behaviour for witnesses: every underlying write fails. -/
def wresFail : Wres := fun _ => (0, some "connection reset")

/-- Sample fresh underlying writer for witnesses. -/
def u0 : Underlying := { headers := [], statusEvents := [], body := "" }

/-! ### Helper lemmas -/

theorem headerGet_headerSet_self (hs : List (String × String)) (k v : String) :
    headerGet (headerSet hs k v) k = some v := by
  induction hs with
  | nil => simp [headerSet, headerGet]
  | cons p rest ih =>
      obtain ⟨k', v'⟩ := p
      by_cases h : k' = k
      · simp [headerSet, headerGet, h]
      · simp [headerSet, headerGet, h, ih]

theorem writeHeader_flag (tw : trackingResponseWriter) (c : Nat) :
    (trackingResponseWriter.WriteHeader tw c).headerWritten = true := by
  cases h : tw.headerWritten <;>
    simp [trackingResponseWriter.WriteHeader, h]

theorem writeHeader_of_flag (tw : trackingResponseWriter) (c : Nat)
    (h : tw.headerWritten = true) :
    trackingResponseWriter.WriteHeader tw c = tw := by
  simp [trackingResponseWriter.WriteHeader, h]

theorem writeHeader_of_not_flag (tw : trackingResponseWriter) (c : Nat)
    (h : tw.headerWritten = false) :
    trackingResponseWriter.WriteHeader tw c =
      { ResponseWriter := tw.ResponseWriter.writeHeader c, headerWritten := true } := by
  simp [trackingResponseWriter.WriteHeader, h]

theorem write_flag (wres : Wres) (tw : trackingResponseWriter) (d : String) :
    ((trackingResponseWriter.Write wres tw d).1).headerWritten = true := rfl

theorem runHandlerOps_flag_mono (wres : Wres) (ops : List HandlerOp) :
    ∀ tw : trackingResponseWriter, tw.headerWritten = true →
      (runHandlerOps wres tw ops).headerWritten = true := by
  induction ops with
  | nil => intro tw h; simpa [runHandlerOps] using h
  | cons op rest ih =>
      intro tw h
      cases op with
      | setHeader k v =>
          exact ih _ (by simpa [trackingResponseWriter.setHeader] using h)
      | writeHeader c =>
          exact ih _ (writeHeader_flag _ _)
      | write d =>
          exact ih _ (write_flag _ _ _)

theorem runHandlerOps_flag_of_emits (wres : Wres) (ops : List HandlerOp)
    (h : ∃ op ∈ ops, HandlerOp.emits op = true) :
    ∀ tw : trackingResponseWriter, (runHandlerOps wres tw ops).headerWritten = true := by
  induction ops with
  | nil => rcases h with ⟨op, hmem, _⟩; cases hmem
  | cons a rest ih =>
      intro tw
      rcases h with ⟨op, hmem, hemit⟩
      rcases List.mem_cons.mp hmem with rfl | hmem2
      · cases op with
        | setHeader k v => simp [HandlerOp.emits] at hemit
        | writeHeader c =>
            exact runHandlerOps_flag_mono wres rest _ (writeHeader_flag _ _)
        | write d =>
            exact runHandlerOps_flag_mono wres rest _ (write_flag _ _ _)
      · cases a with
        | setHeader k v => exact ih ⟨op, hmem2, hemit⟩ _
        | writeHeader c => exact ih ⟨op, hmem2, hemit⟩ _
        | write d => exact ih ⟨op, hmem2, hemit⟩ _

theorem runHandlerOps_silent (wres : Wres) (ops : List HandlerOp)
    (h : ∀ op ∈ ops, HandlerOp.emits op = false) :
    ∀ tw : trackingResponseWriter,
      (runHandlerOps wres tw ops).headerWritten = tw.headerWritten ∧
      (runHandlerOps wres tw ops).ResponseWriter.statusEvents =
        tw.ResponseWriter.statusEvents ∧
      (runHandlerOps wres tw ops).ResponseWriter.body = tw.ResponseWriter.body := by
  induction ops with
  | nil => intro tw; simp [runHandlerOps]
  | cons a rest ih =>
      intro tw
      cases a with
      | setHeader k v =>
          have hrest : ∀ op ∈ rest, HandlerOp.emits op = false := by
            intro op hmem; exact h op (List.mem_cons_of_mem _ hmem)
          have := ih hrest (tw.setHeader k v)
          simpa [runHandlerOps, trackingResponseWriter.setHeader,
            Underlying.setHeader] using this
      | writeHeader c =>
          have := h (HandlerOp.writeHeader c) (List.mem_cons_self _ _)
          simp [HandlerOp.emits] at this
      | write d =>
          have := h (HandlerOp.write d) (List.mem_cons_self _ _)
          simp [HandlerOp.emits] at this

theorem httpError_tracked (wres : Wres) (msg : String) (code : Nat)
    (tw : trackingResponseWriter) :
    httpError wres (HttpResponseWriter.tracked tw) msg code =
      HttpResponseWriter.tracked
        { ResponseWriter :=
            { headers :=
                headerSet (headerSet (headerDel tw.ResponseWriter.headers
                  "Content-Length") "Content-Type" "text/plain; charset=utf-8")
                  "X-Content-Type-Options" "nosniff"
              statusEvents :=
                if tw.headerWritten then tw.ResponseWriter.statusEvents
                else tw.ResponseWriter.statusEvents ++ [code]
              body := tw.ResponseWriter.body ++ (msg ++ "\n") }
          headerWritten := true } := by
  obtain ⟨u, flag⟩ := tw
  cases flag <;>
    simp [httpError, HttpResponseWriter.delHeader, HttpResponseWriter.setHeader,
      HttpResponseWriter.WriteHeader, HttpResponseWriter.Write,
      trackingResponseWriter.delHeader, trackingResponseWriter.setHeader,
      trackingResponseWriter.WriteHeader, trackingResponseWriter.Write,
      Underlying.delHeader, Underlying.setHeader, Underlying.writeHeader,
      Underlying.write]

theorem httpError_plain (wres : Wres) (msg : String) (code : Nat) (u : Underlying) :
    httpError wres (HttpResponseWriter.plain u) msg code =
      HttpResponseWriter.plain
        { headers :=
            headerSet (headerSet (headerDel u.headers "Content-Length")
              "Content-Type" "text/plain; charset=utf-8")
              "X-Content-Type-Options" "nosniff"
          statusEvents := u.statusEvents ++ [code]
          body := u.body ++ (msg ++ "\n") } := rfl

theorem runHandlerOps_statusBudget (wres : Wres) (ops : List HandlerOp) :
    ∀ tw : trackingResponseWriter,
      ((runHandlerOps wres tw ops).ResponseWriter.statusEvents).length +
        (if (runHandlerOps wres tw ops).headerWritten then 0 else 1) ≤
      (tw.ResponseWriter.statusEvents).length +
        (if tw.headerWritten then 0 else 1) := by
  induction ops with
  | nil => intro tw; simp [runHandlerOps]
  | cons a rest ih =>
      intro tw
      cases a with
      | setHeader k v =>
          refine le_trans (ih _) ?_
          simp [trackingResponseWriter.setHeader, Underlying.setHeader]
      | writeHeader c =>
          refine le_trans (ih _) ?_
          cases h : tw.headerWritten <;>
            simp [trackingResponseWriter.WriteHeader, h, Underlying.writeHeader]
      | write d =>
          refine le_trans (ih _) ?_
          cases h : tw.headerWritten <;>
            simp [trackingResponseWriter.Write, Underlying.write, h]

theorem headerGet_headerSet_ne (hs : List (String × String)) (k k2 v2 : String)
    (h : k2 ≠ k) : headerGet (headerSet hs k2 v2) k = headerGet hs k := by
  induction hs with
  | nil => simp [headerSet, headerGet, h]
  | cons p rest ih =>
      obtain ⟨k', v'⟩ := p
      by_cases h1 : k' = k2
      · subst h1
        simp [headerSet, headerGet, h]
      · by_cases h2 : k' = k
        · simp [headerSet, headerGet, h1, h2, Ne.symm h]
        · simp [headerSet, headerGet, h1, h2, ih]

/-! ### Claim theorems -/

/-- C4: on a fresh Tracked Response Sink, `setStatus S1` forwards exactly `S1`
to the underlying sink and sets `headerWritten`; a subsequent `setStatus S2` is
suppressed, changing nothing and forwarding nothing to the underlying sink. -/
theorem claim_C4_duplicate_setStatus_suppressed (u : Underlying) (S1 S2 : Nat) :
    (trackingResponseWriter.WriteHeader (freshTracking u) S1).ResponseWriter.statusEvents =
      u.statusEvents ++ [S1] ∧
    (trackingResponseWriter.WriteHeader (freshTracking u) S1).headerWritten = true ∧
    trackingResponseWriter.WriteHeader
        (trackingResponseWriter.WriteHeader (freshTracking u) S1) S2 =
      trackingResponseWriter.WriteHeader (freshTracking u) S1 ∧
    (trackingResponseWriter.WriteHeader (freshTracking u) S1).ResponseWriter.body =
      u.body := by
  refine ⟨?_, ?_, ?_, ?_⟩ <;>
    simp [freshTracking, trackingResponseWriter.WriteHeader, Underlying.writeHeader]

/-- C7: `headerWritten` is monotone over a Tracked Response Sink's lifetime: it
starts false on the fresh sink, becomes true whenever a status or body byte is
emitted (`setStatus` or `writeBody`), and no sink operation (including `unwrap`,
which is a pure observation) ever resets it to false. -/
theorem claim_C7_headerWritten_monotone (wres : Wres) (tw : trackingResponseWriter)
    (op : SinkOp) (u : Underlying) :
    (freshTracking u).headerWritten = false ∧
    (op ≠ SinkOp.unwrap → (applySinkOp wres tw op).headerWritten = true) ∧
    (tw.headerWritten = true → (applySinkOp wres tw op).headerWritten = true) ∧
    trackingResponseWriter.Unwrap tw = tw.ResponseWriter := by
  refine ⟨rfl, ?_, ?_, rfl⟩
  · intro hne
    cases op with
    | setStatus c => exact writeHeader_flag _ _
    | writeBody d => exact write_flag _ _ _
    | unwrap => exact absurd rfl hne
  · intro hflag
    cases op with
    | setStatus c => exact writeHeader_flag _ _
    | writeBody d => exact write_flag _ _ _
    | unwrap => simpa [applySinkOp] using hflag

/-- Witness for C7 at concrete inputs: emitting a status on the fresh sink sets
the flag, and `unwrap` on a sink whose flag is already true leaves it true. -/
theorem claim_C7_headerWritten_monotone_witness :
    (applySinkOp wresOk (freshTracking u0) (SinkOp.setStatus 200)).headerWritten = true ∧
    (applySinkOp wresOk
        (trackingResponseWriter.WriteHeader (freshTracking u0) 200)
        SinkOp.unwrap).headerWritten = true :=
  ⟨(claim_C7_headerWritten_monotone wresOk (freshTracking u0)
      (SinkOp.setStatus 200) u0).2.1 (by decide),
   (claim_C7_headerWritten_monotone wresOk
      (trackingResponseWriter.WriteHeader (freshTracking u0) 200)
      SinkOp.unwrap u0).2.2.1 rfl⟩

/-- C8: `writeBody` on the tracked sink sets `headerWritten` unconditionally,
forwards the bytes to the underlying sink (leaving status events and headers
untouched), and returns the underlying sink's `(bytesWritten, error)` result
verbatim. -/
theorem claim_C8_writeBody_forwards (wres : Wres) (tw : trackingResponseWriter)
    (data : String) :
    ((trackingResponseWriter.Write wres tw data).1).headerWritten = true ∧
    ((trackingResponseWriter.Write wres tw data).1).ResponseWriter.body =
      tw.ResponseWriter.body ++ data ∧
    ((trackingResponseWriter.Write wres tw data).1).ResponseWriter.statusEvents =
      tw.ResponseWriter.statusEvents ∧
    ((trackingResponseWriter.Write wres tw data).1).ResponseWriter.headers =
      tw.ResponseWriter.headers ∧
    (trackingResponseWriter.Write wres tw data).2 = wres data :=
  ⟨rfl, rfl, rfl, rfl, rfl⟩

/-- C5: when JSON serialization of a non-null value fails inside
`EncodeJSONResponse`, the failure is handled at the point of failure (after the
status code was emitted): on a Tracked Response Sink — whose `headerWritten` is
true by then — nothing beyond the content-type header and the status code is
written (the failure is only logged), while on an untracked sink the function
emits a generic 500 response whose body text is the serialization error's
message.  The error is never returned to the caller (the function is total into
writer states). -/
theorem claim_C5_serialization_failure_handling (wres : Wres) (status : Nat)
    (emsg : String) (tw : trackingResponseWriter) (u : Underlying) :
    EncodeJSONResponse wres (JsonValue.bad emsg) status
        (HttpResponseWriter.tracked tw) =
      HttpResponseWriter.WriteHeader
        (HttpResponseWriter.setHeader (HttpResponseWriter.tracked tw)
          "Content-Type" "application/json; charset=UTF-8") status ∧
    (EncodeJSONResponse wres (JsonValue.bad emsg) status
        (HttpResponseWriter.tracked tw)).toUnderlying.body = tw.ResponseWriter.body ∧
    EncodeJSONResponse wres (JsonValue.bad emsg) status
        (HttpResponseWriter.plain u) =
      httpError wres
        (HttpResponseWriter.WriteHeader
          (HttpResponseWriter.setHeader (HttpResponseWriter.plain u)
            "Content-Type" "application/json; charset=UTF-8") status) emsg 500 ∧
    (EncodeJSONResponse wres (JsonValue.bad emsg) status
        (HttpResponseWriter.plain u)).toUnderlying.statusEvents =
      u.statusEvents ++ [status, 500] ∧
    (EncodeJSONResponse wres (JsonValue.bad emsg) status
        (HttpResponseWriter.plain u)).toUnderlying.body =
      u.body ++ (emsg ++ "\n") := by
  refine ⟨?_, ?_, ?_, ?_, ?_⟩
  · simp [EncodeJSONResponse, HttpResponseWriter.setHeader,
      HttpResponseWriter.WriteHeader, encodeJSONFail, writeHeader_flag]
  · cases h : tw.headerWritten <;>
      simp [EncodeJSONResponse, HttpResponseWriter.setHeader,
        HttpResponseWriter.WriteHeader, encodeJSONFail, writeHeader_flag,
        trackingResponseWriter.setHeader, trackingResponseWriter.WriteHeader,
        Underlying.setHeader, Underlying.writeHeader,
        HttpResponseWriter.toUnderlying, h]
  · simp [EncodeJSONResponse, HttpResponseWriter.setHeader,
      HttpResponseWriter.WriteHeader, encodeJSONFail]
  · simp [EncodeJSONResponse, HttpResponseWriter.setHeader,
      HttpResponseWriter.WriteHeader, encodeJSONFail, httpError_plain,
      Underlying.setHeader, Underlying.writeHeader,
      HttpResponseWriter.toUnderlying]
  · simp [EncodeJSONResponse, HttpResponseWriter.setHeader,
      HttpResponseWriter.WriteHeader, encodeJSONFail, httpError_plain,
      Underlying.setHeader, Underlying.writeHeader,
      HttpResponseWriter.toUnderlying]

/-- C9: in `EncodeJSONResponse`, emitting the status code always sets
`headerWritten` on a Tracked Response Sink before serialization is attempted,
so a serialization failure on a tracked sink always takes the log-only branch:
the result is exactly the post-status state (no fallback body, at most the one
status event).  The generic-500 fallback executes only for an untracked sink,
where it appends the 500 status and the error body. -/
theorem claim_C9_fallback_unreachable_for_tracked (wres : Wres) (status : Nat)
    (emsg : String) (tw : trackingResponseWriter) (u : Underlying) :
    (∃ tw2 : trackingResponseWriter,
      HttpResponseWriter.WriteHeader
          (HttpResponseWriter.setHeader (HttpResponseWriter.tracked tw)
            "Content-Type" "application/json; charset=UTF-8") status =
        HttpResponseWriter.tracked tw2 ∧
      tw2.headerWritten = true ∧
      EncodeJSONResponse wres (JsonValue.bad emsg) status
          (HttpResponseWriter.tracked tw) = HttpResponseWriter.tracked tw2 ∧
      tw2.ResponseWriter.body = tw.ResponseWriter.body ∧
      (tw2.ResponseWriter.statusEvents).length ≤
        (tw.ResponseWriter.statusEvents).length + 1) ∧
    (EncodeJSONResponse wres (JsonValue.bad emsg) status
        (HttpResponseWriter.plain u)).toUnderlying.statusEvents =
      u.statusEvents ++ [status, 500] ∧
    (EncodeJSONResponse wres (JsonValue.bad emsg) status
        (HttpResponseWriter.plain u)).toUnderlying.body =
      u.body ++ (emsg ++ "\n") := by
  refine ⟨⟨trackingResponseWriter.WriteHeader
      (trackingResponseWriter.setHeader tw "Content-Type"
        "application/json; charset=UTF-8") status, ?_, ?_, ?_, ?_, ?_⟩, ?_, ?_⟩
  · rfl
  · exact writeHeader_flag _ _
  · simp [EncodeJSONResponse, HttpResponseWriter.setHeader,
      HttpResponseWriter.WriteHeader, encodeJSONFail, writeHeader_flag]
  · cases h : tw.headerWritten <;>
      simp [trackingResponseWriter.setHeader, trackingResponseWriter.WriteHeader,
        Underlying.setHeader, Underlying.writeHeader, h]
  · cases h : tw.headerWritten <;>
      simp [trackingResponseWriter.setHeader, trackingResponseWriter.WriteHeader,
        Underlying.setHeader, Underlying.writeHeader, h]
  · simp [EncodeJSONResponse, HttpResponseWriter.setHeader,
      HttpResponseWriter.WriteHeader, encodeJSONFail, httpError_plain,
      Underlying.setHeader, Underlying.writeHeader,
      HttpResponseWriter.toUnderlying]
  · simp [EncodeJSONResponse, HttpResponseWriter.setHeader,
      HttpResponseWriter.WriteHeader, encodeJSONFail, httpError_plain,
      Underlying.setHeader, Underlying.writeHeader,
      HttpResponseWriter.toUnderlying]

/-- C6: for a serializable non-null value (whose JSON encoder output is `s`) and
an underlying write that succeeds, `EncodeJSONResponse` with status 200 produces
on the sink — untracked, or a fresh tracked sink — exactly: status 200 forwarded
once, the `Content-Type` header set to `application/json; charset=UTF-8`, and
the body extended by the JSON serialization `s`. -/
theorem claim_C6_encode_success (wres : Wres) (s : String) (u : Underlying)
    (hw : ∀ d, (wres d).2 = none) :
    EncodeJSONResponse wres (JsonValue.ok s) 200 (HttpResponseWriter.plain u) =
      HttpResponseWriter.plain
        { headers := headerSet u.headers "Content-Type" "application/json; charset=UTF-8"
          statusEvents := u.statusEvents ++ [200]
          body := u.body ++ s } ∧
    headerGet (headerSet u.headers "Content-Type" "application/json; charset=UTF-8")
      "Content-Type" = some "application/json; charset=UTF-8" ∧
    EncodeJSONResponse wres (JsonValue.ok s) 200
        (HttpResponseWriter.tracked (freshTracking u)) =
      HttpResponseWriter.tracked
        { ResponseWriter :=
            { headers := headerSet u.headers "Content-Type" "application/json; charset=UTF-8"
              statusEvents := u.statusEvents ++ [200]
              body := u.body ++ s }
          headerWritten := true } := by
  refine ⟨?_, headerGet_headerSet_self _ _ _, ?_⟩
  · simp [EncodeJSONResponse, HttpResponseWriter.setHeader,
      HttpResponseWriter.WriteHeader, HttpResponseWriter.Write,
      Underlying.setHeader, Underlying.writeHeader, Underlying.write, hw]
  · simp [EncodeJSONResponse, HttpResponseWriter.setHeader,
      HttpResponseWriter.WriteHeader, HttpResponseWriter.Write,
      trackingResponseWriter.setHeader, trackingResponseWriter.WriteHeader,
      trackingResponseWriter.Write, freshTracking,
      Underlying.setHeader, Underlying.writeHeader, Underlying.write, hw]

/-- Witness for C6 at concrete inputs: the sample value serializing to `[1,2]`
on a fresh sink with an always-succeeding underlying write. -/
theorem claim_C6_encode_success_witness :
    EncodeJSONResponse wresOk (JsonValue.ok "[1,2]") 200 (HttpResponseWriter.plain u0) =
      HttpResponseWriter.plain
        { headers := headerSet u0.headers "Content-Type" "application/json; charset=UTF-8"
          statusEvents := u0.statusEvents ++ [200]
          body := u0.body ++ "[1,2]" } ∧
    headerGet (headerSet u0.headers "Content-Type" "application/json; charset=UTF-8")
      "Content-Type" = some "application/json; charset=UTF-8" ∧
    EncodeJSONResponse wresOk (JsonValue.ok "[1,2]") 200
        (HttpResponseWriter.tracked (freshTracking u0)) =
      HttpResponseWriter.tracked
        { ResponseWriter :=
            { headers := headerSet u0.headers "Content-Type" "application/json; charset=UTF-8"
              statusEvents := u0.statusEvents ++ [200]
              body := u0.body ++ "[1,2]" }
          headerWritten := true } :=
  claim_C6_encode_success wresOk "[1,2]" u0 (fun _ => rfl)

/-- C1: across any execution of the handler produced by `NewErrorHandler` — any
interaction sequence of the wrapped handler (including any JSON-encoder
activity, which acts through the same sink operations), any returned error, and
the wrapper's own error path — at most one status code reaches the underlying
response writer for the request. -/
theorem NewErrorHandler_statusEvents (wres : Wres) (ops : List HandlerOp)
    (err : Option GoError) (u : Underlying) :
    (NewErrorHandler wres ops err u).statusEvents =
      (runHandlerOps wres (freshTracking u) ops).ResponseWriter.statusEvents ++
      (match err with
       | none => []
       | some e =>
          if (runHandlerOps wres (freshTracking u) ops).headerWritten then []
          else [match e with
                | GoError.status c _ => c
                | GoError.generic _ => 500]) := by
  cases err with
  | none => simp [NewErrorHandler]
  | some e =>
      cases h : (runHandlerOps wres (freshTracking u) ops).headerWritten with
      | true => simp [NewErrorHandler, h]
      | false =>
          cases e <;>
            simp [NewErrorHandler, h, httpError_tracked,
              HttpResponseWriter.toUnderlying]

theorem claim_C1_status_forwarded_at_most_once (wres : Wres) (ops : List HandlerOp)
    (err : Option GoError) (u : Underlying) (hu : u.statusEvents = []) :
    ((NewErrorHandler wres ops err u).statusEvents).length ≤ 1 := by
  have hb := runHandlerOps_statusBudget wres ops (freshTracking u)
  have hfr : (freshTracking u).ResponseWriter.statusEvents = [] := hu
  have hfw : (freshTracking u).headerWritten = false := rfl
  rw [hfr, hfw] at hb
  rw [NewErrorHandler_statusEvents]
  cases h : (runHandlerOps wres (freshTracking u) ops).headerWritten with
  | true =>
      rw [h] at hb
      have hb2 : ((runHandlerOps wres (freshTracking u) ops).ResponseWriter.statusEvents).length ≤ 1 := by
        simpa using hb
      cases err with
      | none => simp; omega
      | some e => simp [h]; omega
  | false =>
      rw [h] at hb
      have hb2 : ((runHandlerOps wres (freshTracking u) ops).ResponseWriter.statusEvents).length = 0 := by
        simpa using hb
      cases err with
      | none => simp; omega
      | some e => cases e <;> simp [h, hb2]

/-- Witness for C1 at concrete inputs: a handler that attempts two `WriteHeader`
calls and then fails still yields at most one forwarded status. -/
theorem claim_C1_status_forwarded_at_most_once_witness :
    ((NewErrorHandler wresOk
        [HandlerOp.writeHeader 200, HandlerOp.writeHeader 404]
        (some (GoError.generic "boom")) u0).statusEvents).length ≤ 1 :=
  claim_C1_status_forwarded_at_most_once wresOk
    [HandlerOp.writeHeader 200, HandlerOp.writeHeader 404]
    (some (GoError.generic "boom")) u0 rfl

/-- C2: a fallible handler that writes nothing through the sink and returns an
error gets its error mapped by the wrapper: a status-carrying error with status
`S` and message `M` yields a plain-text response with status `S` and body
`M` (plus the `Fprintln` newline, so the body contains `M`); a generic error
with message `M` yields status 500 with the same body shape. -/
theorem claim_C2_error_mapped_when_nothing_written (wres : Wres)
    (ops : List HandlerOp) (u : Underlying) (S : Nat) (M : String)
    (hops : ∀ op ∈ ops, HandlerOp.emits op = false)
    (hstatus : u.statusEvents = []) (hbody : u.body = "") :
    (NewErrorHandler wres ops (some (GoError.status S M)) u).statusEvents = [S] ∧
    (NewErrorHandler wres ops (some (GoError.status S M)) u).body = M ++ "\n" ∧
    headerGet (NewErrorHandler wres ops (some (GoError.status S M)) u).headers
      "Content-Type" = some "text/plain; charset=utf-8" ∧
    (NewErrorHandler wres ops (some (GoError.generic M)) u).statusEvents = [500] ∧
    (NewErrorHandler wres ops (some (GoError.generic M)) u).body = M ++ "\n" ∧
    headerGet (NewErrorHandler wres ops (some (GoError.generic M)) u).headers
      "Content-Type" = some "text/plain; charset=utf-8" := by
  obtain ⟨hflag, hse, hbo⟩ := runHandlerOps_silent wres ops hops (freshTracking u)
  have hflag0 : (runHandlerOps wres (freshTracking u) ops).headerWritten = false := by
    rw [hflag]; rfl
  have hse0 : (runHandlerOps wres (freshTracking u) ops).ResponseWriter.statusEvents = [] := by
    rw [hse]; exact hstatus
  have hbo0 : (runHandlerOps wres (freshTracking u) ops).ResponseWriter.body = "" := by
    rw [hbo]; exact hbody
  have hct : ∀ hs : List (String × String),
      headerGet (headerSet (headerSet hs "Content-Type" "text/plain; charset=utf-8")
        "X-Content-Type-Options" "nosniff") "Content-Type" =
        some "text/plain; charset=utf-8" := by
    intro hs
    rw [headerGet_headerSet_ne _ _ _ _ (by decide)]
    exact headerGet_headerSet_self _ _ _
  refine ⟨?_, ?_, ?_, ?_, ?_, ?_⟩ <;>
    simp [NewErrorHandler, hflag0, hse0, hbo0, httpError_tracked,
      HttpResponseWriter.toUnderlying, hct]

/-- Witness for C2 at concrete inputs: a handler doing nothing that returns the
status-carrying error (404, "not found"), respectively the generic error
"not found", on a fresh writer. -/
theorem claim_C2_error_mapped_when_nothing_written_witness :
    (NewErrorHandler wresOk [] (some (GoError.status 404 "not found")) u0).statusEvents = [404] ∧
    (NewErrorHandler wresOk [] (some (GoError.status 404 "not found")) u0).body = "not found" ++ "\n" ∧
    headerGet (NewErrorHandler wresOk [] (some (GoError.status 404 "not found")) u0).headers
      "Content-Type" = some "text/plain; charset=utf-8" ∧
    (NewErrorHandler wresOk [] (some (GoError.generic "not found")) u0).statusEvents = [500] ∧
    (NewErrorHandler wresOk [] (some (GoError.generic "not found")) u0).body = "not found" ++ "\n" ∧
    headerGet (NewErrorHandler wresOk [] (some (GoError.generic "not found")) u0).headers
      "Content-Type" = some "text/plain; charset=utf-8" :=
  claim_C2_error_mapped_when_nothing_written wresOk [] u0 404 "not found"
    (by intro op hmem; cases hmem) rfl rfl

/-- C3: a fallible handler that emits a status or body through the tracked sink
and then returns an error (of either kind) triggers no further writes: the
final underlying state is exactly the state the handler left behind. -/
theorem claim_C3_post_stream_error_only_logged (wres : Wres) (ops : List HandlerOp)
    (u : Underlying) (e : GoError)
    (h : ∃ op ∈ ops, HandlerOp.emits op = true) :
    NewErrorHandler wres ops (some e) u =
      (runHandlerOps wres (freshTracking u) ops).ResponseWriter := by
  have hflag := runHandlerOps_flag_of_emits wres ops h (freshTracking u)
  simp [NewErrorHandler, hflag]

/-- Witness for C3 at concrete inputs: a handler that writes a 200 status and a
body, then fails with a generic error. -/
theorem claim_C3_post_stream_error_only_logged_witness :
    NewErrorHandler wresOk [HandlerOp.writeHeader 200, HandlerOp.write "hello"]
        (some (GoError.generic "boom")) u0 =
      (runHandlerOps wresOk (freshTracking u0)
        [HandlerOp.writeHeader 200, HandlerOp.write "hello"]).ResponseWriter :=
  claim_C3_post_stream_error_only_logged wresOk
    [HandlerOp.writeHeader 200, HandlerOp.write "hello"] u0 (GoError.generic "boom")
    ⟨HandlerOp.writeHeader 200, by simp, rfl⟩

/-- C10: `writeBody` marks `headerWritten` even when the underlying write fails
(the flag is set before delegation and independent of the returned result), so
after any attempted body write a later handler error is treated as a
post-stream error: the wrapper only logs it and writes nothing further. -/
theorem claim_C10_failed_write_still_marks_header (wres : Wres)
    (ops : List HandlerOp) (u : Underlying) (e : GoError)
    (tw : trackingResponseWriter) (d0 : String)
    (h : HandlerOp.write d0 ∈ ops) :
    ((trackingResponseWriter.Write wres tw d0).1).headerWritten = true ∧
    NewErrorHandler wres ops (some e) u =
      (runHandlerOps wres (freshTracking u) ops).ResponseWriter := by
  refine ⟨rfl, ?_⟩
  have hflag := runHandlerOps_flag_of_emits wres ops
    ⟨HandlerOp.write d0, h, rfl⟩ (freshTracking u)
  simp [NewErrorHandler, hflag]

/-- Witness for C10 at concrete inputs: an underlying write that always fails,
a handler that attempts one body write and then returns a generic error. -/
theorem claim_C10_failed_write_still_marks_header_witness :
    ((trackingResponseWriter.Write wresFail (freshTracking u0) "x").1).headerWritten = true ∧
    NewErrorHandler wresFail [HandlerOp.write "x"] (some (GoError.generic "boom")) u0 =
      (runHandlerOps wresFail (freshTracking u0) [HandlerOp.write "x"]).ResponseWriter :=
  claim_C10_failed_write_still_marks_header wresFail [HandlerOp.write "x"] u0
    (GoError.generic "boom") (freshTracking u0) "x" (by simp)
